import Mathlib

set_option maxRecDepth 20000
set_option maxHeartbeats 2000000

/-!
Shallow embedding of the streaming core of `twitch-hls-client`
(src/hls/playlist.rs, src/hls/segment.rs, src/http/request.rs).

Rust `&str` values are modelled as `List Char`; Rust `f32` seconds are
modelled as exact rationals parsed from the decimal literal (every value the
development compares is parsed through the same function, so equalities are
preserved); byte streams are `List Nat`.
-/

abbrev Str := List Char

/-- Rust `str::starts_with`. -/
def startsWith (pre s : Str) : Bool := List.isPrefixOf pre s

/-- Rust `str::contains` for a substring pattern. -/
def containsSubstr (s pat : Str) : Bool :=
  match s with
  | [] => List.isPrefixOf pat []
  | _ :: rest => List.isPrefixOf pat s || containsSubstr rest pat

/-- Rust `str::contains` for a char pattern. -/
def containsChar (c : Char) (s : Str) : Bool := s.contains c

/-- Rust `str::split_once(c)`: split at the first occurrence of `c`. -/
def splitOnceChar (c : Char) : Str → Option (Str × Str)
  | [] => none
  | x :: rest =>
    if x = c then some ([], rest)
    else
      match splitOnceChar c rest with
      | none => none
      | some (l, r) => some (x :: l, r)

/-- One step of Rust `str::lines`: strip a single trailing carriage return
from a line that was terminated by a line feed. -/
def stripTrailingCR (l : Str) : Str :=
  if l ≠ [] ∧ l.getLast? = some '\r' then l.dropLast else l

/-- Rust `str::lines`: split at every line feed, strip one carriage return
before each line feed, and drop the final empty piece (a trailing newline
does not create a final empty line; the last piece, having no terminating
newline, keeps any trailing carriage return). -/
def rustLines (s : Str) : List Str :=
  let parts := s.splitOn '\n'
  (parts.take (parts.length - 1)).map stripTrailingCR ++
    (match parts.getLast? with
     | some [] => []
     | some l => [l]
     | none => [])

instance {ε α : Type} [DecidableEq ε] [DecidableEq α] :
    DecidableEq (Except ε α) := fun a b =>
  match a, b with
  | .ok x, .ok y =>
    if h : x = y then .isTrue (by rw [h])
    else .isFalse (fun hh => h (Except.ok.inj hh))
  | .ok _, .error _ => .isFalse (fun hh => Except.noConfusion hh)
  | .error _, .ok _ => .isFalse (fun hh => Except.noConfusion hh)
  | .error x, .error y =>
    if h : x = y then .isTrue (by rw [h])
    else .isFalse (fun hh => h (Except.error.inj hh))

/-- Number denoted by a decimal digit string. -/
def digitsToNat (l : Str) : ℕ := l.foldl (fun acc c => acc * 10 + (c.toNat - 48)) 0

/-- Reading of a Rust `f32` decimal literal straight into nanoseconds of a
`std::time::Duration` (`s.parse::<f32>()` followed by
`Duration::try_from_secs_f32`, restricted to finite decimal literals — the
only form segment durations take; the model keeps the decimal exactly where
`f32` would round to the nearest representable float, which no claim
distinguishes). Returns the sign and the nanosecond count; an unparsable
string is `none` (the `ParseFloatError` path). Fractional digits beyond
nanosecond precision are truncated. -/
def parseSecsNanos (s : Str) : Option (Bool × ℕ) :=
  let (neg, digits) :=
    match s with
    | '-' :: rest => (true, rest)
    | rest => (false, rest)
  match splitOnceChar '.' digits with
  | none =>
    if digits ≠ [] ∧ digits.all Char.isDigit then
      some (neg, digitsToNat digits * 1000000000)
    else none
  | some (intPart, fracPart) =>
    if (intPart ≠ [] ∨ fracPart ≠ []) ∧ intPart.all Char.isDigit ∧
        fracPart.all Char.isDigit then
      some (neg, digitsToNat intPart * 1000000000 +
        digitsToNat (fracPart.take 9) * 10 ^ (9 - (fracPart.take 9).length))
    else none

/-- Structure `Duration` from src/hls/segment.rs: `inner` is the parsed
`std::time::Duration`, held as its exact nanosecond count. -/
structure Duration where
  is_ad : Bool
  was_capped : Bool
  inner : ℕ
deriving DecidableEq, Repr

/-- One second of `Duration.inner`, in nanoseconds. -/
def nsPerSec : ℕ := 1000000000

/-- The `impl FromStr for Duration` (src/hls/segment.rs): `is_ad` iff the line
contains a pipe; seconds are the text between the first colon and the
following comma; `Duration::try_from_secs_f32` rejects negative values. -/
def Duration.from_str (s : Str) : Except String Duration :=
  let is_ad := containsChar '|' s
  match splitOnceChar ':' s with
  | none => .error "Invalid segment duration"
  | some (_, afterColon) =>
    match splitOnceChar ',' afterColon with
    | none => .error "Invalid segment duration"
    | some (num, _) =>
      match parseSecsNanos num with
      | none => .error "invalid float literal"
      | some (neg, nanos) =>
        if neg then .error "Failed to parse segment duration"
        else .ok ⟨is_ad, false, nanos⟩

/-- Actions observable from the segment handler: worker dispatches
(`Worker::url`, `Worker::sync_url`) and `Duration::sleep_thread` calls,
recorded with the duration argument and the elapsed time subtracted from it
(both in nanoseconds). -/
inductive Act where
  | aUrl (u : Str)
  | aSyncUrl (u : Str)
  | aSleep (duration elapsed : ℕ)
deriving DecidableEq, Repr

/-- Method `Duration::sleep` (src/hls/segment.rs:51-63): durations of at least
`MAX_DURATION` (3 s), or already-capped ones, sleep for half and set
`was_capped`; otherwise the full duration is slept. Returns the mutated
duration and the `sleep_thread` call made. -/
def Duration.sleep (d : Duration) (elapsed : ℕ) : Duration × Act :=
  if 3 * nsPerSec ≤ d.inner ∨ d.was_capped then
    (⟨d.is_ad, true, d.inner⟩, .aSleep (d.inner / 2) elapsed)
  else
    (d, .aSleep d.inner elapsed)

/-- Method `Duration::sleep_half` (src/hls/segment.rs:65-69): sleeps half the
duration without mutating the flag (`checked_div(2)` never fails). -/
def Duration.sleep_half (d : Duration) (elapsed : ℕ) : Act :=
  .aSleep (d.inner / 2) elapsed

/-- Method `Duration::sleep_thread` (src/hls/segment.rs:71-76): the time actually
slept by an `aSleep` action — `checked_sub` yields nothing when the elapsed
time already exceeds the budget, and no sleep happens. -/
def Act.sleptFor : Act → ℕ
  | .aSleep duration elapsed => duration - elapsed
  | _ => 0

/-- Enum `Segment` (src/hls/segment.rs:79-87); URLs are modelled as the strings the
parser produces (`http::Url` wraps the string; `Url::take` leaves it empty). -/
inductive Segment where
  | Normal (d : Duration) (url : Str)
  | NextPrefetch (d : Duration) (url : Str)
  | NewestPrefetch (url : Str)
  | Unknown
deriving DecidableEq, Repr

/-- URL component of `Segment::destructure_ref`. -/
def Segment.urlOf : Segment → Option Str
  | .Normal _ u => some u
  | .NextPrefetch _ u => some u
  | .NewestPrefetch u => some u
  | .Unknown => none

/-- Duration component of `Segment::destructure_ref`. -/
def Segment.durOf : Segment → Option Duration
  | .Normal d _ => some d
  | .NextPrefetch d _ => some d
  | .NewestPrefetch _ => none
  | .Unknown => none

/-- The `impl PartialEq for Segment` (src/hls/segment.rs:89-96): URLs only. -/
def Segment.eqBy (a b : Segment) : Bool := a.urlOf == b.urlOf

/-- Method `Segment::find_next` (src/hls/segment.rs:98-111): position of the first
equal segment; the successor if it exists, `None` at the end, and
`Some(Unknown)` when the segment is not found (the source's `mem::take` of
the returned slot only affects the discarded local list). -/
def Segment.find_next (prev : Segment) (segments : List Segment) :
    Option Segment :=
  match segments.findIdx? (fun s => prev.eqBy s) with
  | some idx =>
    if idx + 1 == segments.length then none
    else segments.get? (idx + 1)
  | none => some .Unknown

/-- Method `Url::take` leaves the default (empty) URL behind; applied to the segment
that becomes `prev_segment` after its URL was handed to the worker. -/
def Segment.takeUrl : Segment → Segment
  | .Normal d _ => .Normal d []
  | .NextPrefetch d _ => .NextPrefetch d []
  | .NewestPrefetch _ => .NewestPrefetch []
  | .Unknown => .Unknown

def extinfT : Str := "#EXTINF".toList
def prefetchT : Str := "#EXT-X-TWITCH-PREFETCH".toList
def endlistT : Str := "#EXT-X-ENDLIST".toList
def extMediaT : Str := "#EXT-X-MEDIA".toList
def futureT : Str := "FUTURE=\"true\"".toList
def bestT : Str := "best".toList

/-- Predicate `MediaPlaylist::is_prefetch_segment` (src/hls/playlist.rs:270-272). -/
def is_prefetch_segment (line : Str) : Bool := startsWith prefetchT line

/-- Method `MediaPlaylist::last_duration` (src/hls/playlist.rs:261-268): parse the
last `#EXTINF` line of the whole body, searched from the end. -/
def last_duration (body : Str) : Except String Duration :=
  match (rustLines body).reverse.find? (fun l => startsWith extinfT l) with
  | none => .error "Failed to get prefetch segment duration"
  | some l => Duration.from_str l

/-- Loop body of `MediaPlaylist::segments` (src/hls/playlist.rs:212-247) over
the remaining lines. An `#EXTINF` line is parsed; a non-ad duration takes the
following line as the URL of a `Normal` segment (an ad consumes no URL line —
the URL line is merely ignored by later iterations). A prefetch line emits
`NextPrefetch` with `last_duration` of the whole body (evaluated before the
URL split, as in the source), and unconditionally consumes the following
line, emitting it as `NewestPrefetch` when it is also a prefetch line.
The source's single `line :: rest` arm with inner `lines.next()` calls is
split here into a one-line arm (where `lines.next()` yields nothing: a
trailing `#EXTINF` pushes nothing whether or not it is an ad, a trailing
prefetch pushes only its `NextPrefetch`) and a two-or-more arm where the
following line is in hand. -/
def segmentsGo (body : Str) : List Str → Except String (List Segment)
  | [] => .ok []
  | [line] =>
    if startsWith extinfT line then
      match Duration.from_str line with
      | .error e => .error e
      | .ok _ => .ok []
    else if is_prefetch_segment line then
      match last_duration body with
      | .error e => .error e
      | .ok d =>
        match splitOnceChar ':' line with
        | none => .error "Failed to parse next prefetch URL"
        | some (_, u1) => .ok [.NextPrefetch d u1]
    else .ok []
  | line :: next :: rest2 =>
    if startsWith extinfT line then
      match Duration.from_str line with
      | .error e => .error e
      | .ok d =>
        if !d.is_ad then
          (fun t => .Normal d next :: t) <$> segmentsGo body rest2
        else segmentsGo body (next :: rest2)
    else if is_prefetch_segment line then
      match last_duration body with
      | .error e => .error e
      | .ok d =>
        match splitOnceChar ':' line with
        | none => .error "Failed to parse next prefetch URL"
        | some (_, u1) =>
          if is_prefetch_segment next then
            match splitOnceChar ':' next with
            | none => .error "Failed to parse newest prefetch URL"
            | some (_, u2) =>
              (fun t => .NextPrefetch d u1 :: .NewestPrefetch u2 :: t) <$>
                segmentsGo body rest2
          else
            (fun t => .NextPrefetch d u1 :: t) <$> segmentsGo body rest2
    else segmentsGo body (next :: rest2)

/-- Method `MediaPlaylist::segments` (src/hls/playlist.rs:212-247). -/
def segments (body : Str) : Except String (List Segment) :=
  segmentsGo body (rustLines body)

/-- Method `MediaPlaylist::filter_if_ad` (src/hls/playlist.rs:249-259): when the last
`#EXTINF` of the raw body is an ad, sleep through it (`Duration::sleep` on a
temporary, whose `was_capped` mutation is discarded) and signal `Break`
(`some` action); otherwise `Continue` (`none`). -/
def filter_if_ad (body : Str) (elapsed : ℕ) : Except String (Option Act) :=
  match last_duration body with
  | .error e => .error e
  | .ok d => if d.is_ad then .ok (some (d.sleep elapsed).2) else .ok none

/-- Struct `MasterPlaylist` (src/hls/playlist.rs:16-19). -/
structure MasterPlaylist where
  url : Str
  low_latency : Bool
deriving DecidableEq, Repr

/-- The `skip_while` predicate of `parse_variant_playlist`, positively: the
line contains `#EXT-X-MEDIA` and either contains the quality label or the
quality is `best`. -/
def variantMatch (quality s : Str) : Bool :=
  containsSubstr s extMediaT &&
    (containsSubstr s quality || quality == bestT)

/-- Method `MasterPlaylist::parse_variant_playlist` (src/hls/playlist.rs:157-170):
skip lines until one contains `#EXT-X-MEDIA` and either contains the quality
or the quality is `best`; the url is the element at index 2 of the remaining
iterator (the matching line being index 0); `MasterPlaylist.url` is a plain
`String`, so its `parse` never fails. -/
def parse_variant_playlist (playlist quality : Str) :
    Except String MasterPlaylist :=
  match ((rustLines playlist).dropWhile
      (fun s => !variantMatch quality s)).get? 2 with
  | none => .error "Invalid quality or malformed master playlist"
  | some url => .ok ⟨url, containsSubstr playlist futureT⟩

/-- Method `MediaPlaylist::reload` (src/hls/playlist.rs:189-206) after the body has
been fetched: store the body, then fail with `Offline` when the last line of
the `lines()` iterator (`next_back`, defaulting to empty) starts with
`#EXT-X-ENDLIST`. -/
def reload (body : Str) : Str × Except String Unit :=
  (body,
    if startsWith endlistT ((rustLines body).getLast?.getD []) then
      .error "Offline"
    else .ok ())

/-- State of `Handler` from src/hls/segment.rs:134-139 (the segment handler). -/
structure SegHandler where
  prev_segment : Segment
  init : Bool
deriving DecidableEq, Repr

/-- The `find_map` over reversed segments at the start of
`Handler::process` (src/hls/segment.rs:157-160): the last `Normal` duration. -/
def lastNormalDuration (segs : List Segment) : Option Duration :=
  segs.reverse.findSome? (fun s =>
    match s with
    | .Normal d _ => some d
    | _ => none)

/-- Method `Handler::process` after the ad check (src/hls/segment.rs:171-216):
dispatch on `find_next`. `Normal`/`NextPrefetch` hand the URL to the worker
asynchronously and sleep; `NewestPrefetch` dispatches synchronously; `Unknown`
dispatches the last segment synchronously, clears `init` and jumps
`prev_segment` to it; `None` sleeps half the previous segment's duration.
The new `prev_segment` keeps the mutations the source made in place: the URL
was taken and `Duration::sleep` may have set `was_capped`. -/
def processRest (st : SegHandler) (segs : List Segment) (elapsed : ℕ) :
    Except String (SegHandler × List Act) :=
  match Segment.find_next st.prev_segment segs with
  | some seg =>
    match seg with
    | .Normal d u =>
      let (d2, slAct) := d.sleep elapsed
      .ok ({ st with prev_segment := .Normal d2 [] }, [.aUrl u, slAct])
    | .NextPrefetch d u =>
      let (d2, slAct) := d.sleep elapsed
      .ok ({ st with prev_segment := .NextPrefetch d2 [] }, [.aUrl u, slAct])
    | .NewestPrefetch u =>
      .ok ({ st with prev_segment := .NewestPrefetch [] }, [.aSyncUrl u])
    | .Unknown =>
      match segs.getLast? with
      | none => .error "Failed to find newest segment"
      | some lastSeg =>
        match lastSeg.urlOf with
        | none => .error "Failed to get last segment URL while skipping to newest"
        | some u =>
          .ok (⟨lastSeg.takeUrl, false⟩, [.aSyncUrl u])
  | none =>
    match st.prev_segment.durOf with
    | none => .error "Failed to get segment duration while retrying"
    | some d => .ok (st, [d.sleep_half elapsed])

/-- Method `Handler::process` (src/hls/segment.rs:155-217): parse the playlist,
check the last `Normal` segment for an ad (sleeping and returning unchanged
when it is one), then dispatch via `find_next`. -/
def process (st : SegHandler) (body : Str) (elapsed : ℕ) :
    Except String (SegHandler × List Act) :=
  match segments body with
  | .error e => .error e
  | .ok segs =>
    match lastNormalDuration segs with
    | some d =>
      if d.is_ad then .ok (st, [(d.sleep elapsed).2])
      else processRest st segs elapsed
    | none => processRest st segs elapsed

/-- Counter state of the HTTP `Handler` (src/http/request.rs:351-359). -/
structure HttpHandler where
  written : ℕ
  resume_target : ℕ
deriving DecidableEq, Repr

/-- The `impl Write for Handler` (src/http/request.rs:361-386): while
`resume_target` is pending, input is discarded until the cumulative count
reaches it; the write that crosses the target forwards only the tail past it.
Returns the new counters and the bytes forwarded to the real sink. The
source's `self.written += buf.len()` adds the length of the possibly trimmed
buffer. -/
def HttpHandler.write (st : HttpHandler) (buf : List ℕ) :
    HttpHandler × List ℕ :=
  let buf_len := buf.length
  if 0 < st.resume_target then
    if st.resume_target ≤ st.written + buf_len then
      let b := buf.drop (st.resume_target - st.written)
      (⟨st.written + b.length, 0⟩, b)
    else
      (⟨st.written + buf_len, st.resume_target⟩, [])
  else
    (⟨st.written + buf_len, st.resume_target⟩, buf)

/-- The `io::copy` in `do_request` seen from the `Handler`: a sequence of
`write` calls, one per decoder chunk, concatenating the forwarded bytes. -/
def HttpHandler.writeAll (st : HttpHandler) :
    List (List ℕ) → HttpHandler × List ℕ
  | [] => (st, [])
  | c :: cs =>
    let out := HttpHandler.write st c
    let rec2 := HttpHandler.writeAll out.1 cs
    (rec2.1, out.2 ++ rec2.2)

/-- Model of `BufRead::read_until(b'\n')` through `Read::take(limit)`
(src/http/request.rs:173-177): consume bytes up to and including the first
line feed, but at most `limit` bytes; returns the consumed count, the bytes
read, and the remaining input. -/
def readUntilLimited (limit : ℕ) (delim : ℕ) :
    List ℕ → ℕ × List ℕ × List ℕ
  | [] => (0, [], [])
  | b :: rest =>
    match limit with
    | 0 => (0, [], b :: rest)
    | limit2 + 1 =>
      if b == delim then (1, [b], rest)
      else
        let r := readUntilLimited limit2 delim rest
        (r.1 + 1, b :: r.2.1, r.2.2)

/-- Constant `MAX_HEADERS_SIZE` (src/http/request.rs:159). -/
def MAX_HEADERS_SIZE : ℕ := 2048

/-- The header-reading loop of `Request::do_request`
(src/http/request.rs:166-178): while the last `read_until` did not consume
exactly two bytes (the bare CRLF), check for EOF (`fill_buf` empty) and read
another piece through a fresh 2048-byte `take`. Returns the accumulated
response bytes and the rest of the stream. The `fuel` counter is purely a
termination device — each iteration consumes at least one byte, so running it
with `fuel = input.length` never exhausts it (`readHeadersLoopF_spec`). -/
def readHeadersLoopF : (fuel : ℕ) → (input response : List ℕ) →
    Except String (List ℕ × List ℕ)
  | _, [], _ => .error "UnexpectedEof"
  | 0, _ :: _, _ => .error "OutOfFuel"
  | fuel + 1, b :: tl, response =>
    let r := readUntilLimited MAX_HEADERS_SIZE 10 (b :: tl)
    if r.1 == 2 then .ok (response ++ r.2.1, r.2.2)
    else readHeadersLoopF fuel r.2.2 (response ++ r.2.1)

/-- Header reading as `Request::do_request` performs it, starting from an
empty response buffer (the initial `consumed = 0` differs from
`HEADERS_END_SIZE`, so the loop body always runs at least once). -/
def readHeaders (input : List ℕ) : Except String (List ℕ × List ℕ) :=
  readHeadersLoopF input.length input []

/-- Outcomes of `do_request` relevant to `Request::call`
(src/http/request.rs:119-155): `delta` abstracts the chunks the decoder
pushed through `Handler::write` during the attempt, and the outcome is the
returned result, with I/O errors carrying their kind. -/
inductive IOKind where
  | otherKind
  | transientKind
deriving DecidableEq, Repr

inductive Outcome where
  | success
  | ioError (k : IOKind)
  | nonIoError
deriving DecidableEq, Repr

/-- One scripted `do_request` attempt: the chunk sequence written through the
`Handler` before the outcome occurred. -/
structure Attempt where
  writes : List (List ℕ)
  outcome : Outcome
deriving DecidableEq, Repr

/-- Where an assignment to `Handler.written` happens inside `call`. -/
inductive Phase where
  | writePhase
  | reconnectPhase
  | resumeZeroPhase
  | finalPhase
deriving DecidableEq, Repr

/-- A recorded assignment to `Handler.written`: its phase, the value before
and the value after. -/
structure Event where
  phase : Phase
  before : ℕ
  after : ℕ
deriving DecidableEq, Repr

/-- An `Event` that resets a positive counter to zero. -/
def Event.isZeroing (e : Event) : Bool := 0 < e.before && e.after == 0

inductive CallErr where
  | io (k : IOKind)
  | nonIo
  | scriptEnd
deriving DecidableEq, Repr

/-- The writes of one attempt together with the `written` assignments they
make. -/
def writeAllEv (st : HttpHandler) :
    List (List ℕ) → HttpHandler × List Event
  | [] => (st, [])
  | c :: cs =>
    let st2 := (HttpHandler.write st c).1
    let r := writeAllEv st2 cs
    (r.1, ⟨.writePhase, st.written, st2.written⟩ :: r.2)

/-- Method `Request::call` (src/http/request.rs:119-155) over a script of attempt
outcomes. On success the loop breaks and `written` is zeroed (the final
flush). A retryable I/O error (any kind but `Other`, while retries remain)
reconnects — `reconnect` rebuilds the whole `Request`, so the handler is
replaced by a fresh one with `written = 0` and `resume_target = 0` — and only
then reads `handler.written` into `written`, zeroing it into `resume_target`
if positive (dead after the rebuild). `Other`-kind I/O errors, non-I/O errors
and exhausted retries surface. An exhausted script is the modelling artifact
`scriptEnd`. Returns the recorded `written` assignments, the final handler
and the result. -/
def callLoop (maxRetries : ℕ) :
    List Attempt → ℕ → HttpHandler → List Event →
      List Event × HttpHandler × Except CallErr Unit
  | [], _, h, tr => (tr, h, .error .scriptEnd)
  | a :: rest, retries, h, tr =>
    let w := writeAllEv h a.writes
    let h1 := w.1
    let tr1 := tr ++ w.2
    match a.outcome with
    | .success =>
      (tr1 ++ [⟨.finalPhase, h1.written, 0⟩], ⟨0, h1.resume_target⟩, .ok ())
    | .nonIoError => (tr1, h1, .error .nonIo)
    | .ioError k =>
      if retries < maxRetries then
        match k with
        | .otherKind => (tr1, h1, .error (.io .otherKind))
        | .transientKind =>
          let h2 : HttpHandler := ⟨0, 0⟩
          let tr2 := tr1 ++ [⟨.reconnectPhase, h1.written, 0⟩]
          if 0 < h2.written then
            callLoop maxRetries rest (retries + 1) ⟨0, h2.written⟩
              (tr2 ++ [⟨.resumeZeroPhase, h2.written, 0⟩])
          else
            callLoop maxRetries rest (retries + 1) h2 tr2
      else (tr1, h1, .error (.io k))

/-- Method `Request::call` from its entry point: zero retries so far, no events. -/
def callModel (maxRetries : ℕ) (attempts : List Attempt) (h : HttpHandler) :
    List Event × HttpHandler × Except CallErr Unit :=
  callLoop maxRetries attempts 0 h []

/-- Whether an action is a `sleep_thread` call. -/
def Act.isSleep : Act → Bool
  | .aSleep _ _ => true
  | _ => false

/-- The canonical master playlist, verbatim from the source's test fixture
`MASTER_PLAYLIST` (src/hls/playlist.rs:388-410). -/
def MASTER_PLAYLIST : Str := ("#EXT3MU\n" ++
  "#EXT-X-TWITCH-INFO:NODE=\"...FUTURE=\"true\"...\"\n" ++
  "#EXT-X-MEDIA:TYPE=VIDEO,GROUP-ID=\"chunked\",NAME=\"1080p60 (source)\",AUTOSELECT=YES,DEFAULT=YES\n" ++
  "#EXT-X-STREAM-INF:BANDWIDTH=0,RESOLUTION=1920x1080,CODECS=\"avc1.64002A,mp4a.40.2\",VIDEO=\"chunked\",FRAME-RATE=60.000\n" ++
  "http://1080p.invalid\n" ++
  "#EXT-X-MEDIA:TYPE=VIDEO,GROUP-ID=\"720p60\",NAME=\"720p60\",AUTOSELECT=YES,DEFAULT=YES\n" ++
  "#EXT-X-STREAM-INF:BANDWIDTH=0,RESOLUTION=1280x720,CODECS=\"avc1.4D401F,mp4a.40.2\",VIDEO=\"720p60\",FRAME-RATE=60.000\n" ++
  "http://720p60.invalid\n" ++
  "#EXT-X-MEDIA:TYPE=VIDEO,GROUP-ID=\"720p30\",NAME=\"720p\",AUTOSELECT=YES,DEFAULT=YES\n" ++
  "#EXT-X-STREAM-INF:BANDWIDTH=0,RESOLUTION=1280x720,CODECS=\"avc1.4D401F,mp4a.40.2\",VIDEO=\"720p30\",FRAME-RATE=30.000\n" ++
  "http://720p30.invalid\n" ++
  "#EXT-X-MEDIA:TYPE=VIDEO,GROUP-ID=\"480p30\",NAME=\"480p\",AUTOSELECT=YES,DEFAULT=YES\n" ++
  "#EXT-X-STREAM-INF:BANDWIDTH=0,RESOLUTION=852x480,CODECS=\"avc1.4D401F,mp4a.40.2\",VIDEO=\"480p30\",FRAME-RATE=30.000\n" ++
  "http://480p.invalid\n" ++
  "#EXT-X-MEDIA:TYPE=VIDEO,GROUP-ID=\"360p30\",NAME=\"360p\",AUTOSELECT=YES,DEFAULT=YES\n" ++
  "#EXT-X-STREAM-INF:BANDWIDTH=0,RESOLUTION=640x360,CODECS=\"avc1.4D401F,mp4a.40.2\",VIDEO=\"360p30\",FRAME-RATE=30.000\n" ++
  "http://360p.invalid\n" ++
  "#EXT-X-MEDIA:TYPE=VIDEO,GROUP-ID=\"160p30\",NAME=\"160p\",AUTOSELECT=YES,DEFAULT=YES\n" ++
  "#EXT-X-STREAM-INF:BANDWIDTH=0,RESOLUTION=284x160,CODECS=\"avc1.4D401F,mp4a.40.2\",VIDEO=\"160p30\",FRAME-RATE=30.000\n" ++
  "http://160p.invalid\n" ++
  "#EXT-X-MEDIA:TYPE=VIDEO,GROUP-ID=\"audio_only\",NAME=\"audio_only\",AUTOSELECT=NO,DEFAULT=NO\n" ++
  "#EXT-X-STREAM-INF:BANDWIDTH=0,CODECS=\"mp4a.40.2\",VIDEO=\"audio_only\"\n" ++
  "http://audio-only.invalid").toList

/-- A media playlist ending in two prefetch lines whose preceding `#EXTINF`
is `0.978` (the shape of the spec's prefetch-ordering scenario). -/
def MEDIA_PLAYLIST : Str := ("#EXTM3U\n" ++
  "#EXT-X-MAP:URI=\"http://header.invalid\"\n" ++
  "#EXTINF:0.978,live\n" ++
  "http://segment1.invalid\n" ++
  "#EXT-X-TWITCH-PREFETCH:http://next-prefetch-url.invalid\n" ++
  "#EXT-X-TWITCH-PREFETCH:http://newest-prefetch-url.invalid").toList

/-- A media playlist whose last `#EXTINF` line carries the ad marker pipe. -/
def AD_PLAYLIST : Str := ("#EXTM3U\n" ++
  "#EXTINF:2.0,live\n" ++
  "http://a.invalid\n" ++
  "#EXTINF:2.0,live|ad\n" ++
  "http://b.invalid").toList

/-- A header section of 2053 bytes: 2050 times `a`, a line feed, then the
bare CRLF. -/
def BIG_HEADERS : List ℕ := List.replicate 2050 97 ++ [10, 13, 10]

/-- Following the words of claim C4 (and spec section 4.5): the first line
that BEGINS WITH `#EXT-X-MEDIA` and contains the quality (any such line for
`best`), and the THIRD line after that match. -/
def claimVariantUrl (body quality : Str) : Option Str :=
  match (rustLines body).findIdx? (fun s =>
      startsWith extMediaT s &&
        (containsSubstr s quality || quality == bestT)) with
  | some i => (rustLines body).get? (i + 3)
  | none => none

/-- Following the words of claim C7: the last non-empty line of the body. -/
def lastNonEmptyLine (body : Str) : Str :=
  ((rustLines body).reverse.find? (fun l => !l.isEmpty)).getD []

/-- Following the words of claim C7: offline iff the last non-empty line
begins with `#EXT-X-ENDLIST`. -/
def claimOffline (body : Str) : Bool :=
  startsWith endlistT (lastNonEmptyLine body)


/-! Helper lemmas -/

/-! Model sanity checks -/

example : rustLines "a\r\nb".toList = ["a".toList, "b".toList] := by decide
example : rustLines "a\n".toList = ["a".toList] := by decide
example : rustLines "".toList = [] := by decide
example : rustLines "a\n\n".toList = ["a".toList, []] := by decide
example : rustLines "\n".toList = [[]] := by decide
example : rustLines "abc\r".toList = ["abc\r".toList] := by decide

example : parseSecsNanos "0.978".toList = some (false, 978000000) := by decide
example : parseSecsNanos "5".toList = some (false, 5000000000) := by decide
example : parseSecsNanos "2.0".toList = some (false, 2000000000) := by decide
example : parseSecsNanos "x".toList = none := by decide

example : Duration.from_str "#EXTINF:0.978,live".toList =
    .ok ⟨false, false, 978000000⟩ := by decide
example : Duration.from_str "#EXTINF:2.000,live|ad".toList =
    .ok ⟨true, false, 2000000000⟩ := by decide

example : segments MEDIA_PLAYLIST = .ok
    [.Normal ⟨false, false, 978000000⟩ "http://segment1.invalid".toList,
     .NextPrefetch ⟨false, false, 978000000⟩
       "http://next-prefetch-url.invalid".toList,
     .NewestPrefetch "http://newest-prefetch-url.invalid".toList] := by decide

example : parse_variant_playlist MASTER_PLAYLIST "best".toList =
    .ok ⟨"http://1080p.invalid".toList, true⟩ := by decide

theorem readUntilLimited_append (limit delim : ℕ) (l : List ℕ) :
    (readUntilLimited limit delim l).2.1 ++ (readUntilLimited limit delim l).2.2
      = l := by
  induction l generalizing limit with
  | nil => simp [readUntilLimited]
  | cons b rest ih =>
    cases limit with
    | zero => simp [readUntilLimited]
    | succ limit2 =>
      by_cases hb : b = delim
      · simp [readUntilLimited, hb]
      · simpa [readUntilLimited, hb] using ih limit2

theorem readUntilLimited_rest_le (limit delim : ℕ) (l : List ℕ) :
    (readUntilLimited limit delim l).2.2.length ≤ l.length := by
  have h := readUntilLimited_append limit delim l
  calc (readUntilLimited limit delim l).2.2.length
      ≤ (readUntilLimited limit delim l).2.1.length +
        (readUntilLimited limit delim l).2.2.length := by omega
    _ = l.length := by rw [← List.length_append, h]

theorem readUntilLimited_rest_lt (limit delim : ℕ) (l : List ℕ)
    (hne : l ≠ []) (hl : 0 < limit) :
    (readUntilLimited limit delim l).2.2.length < l.length := by
  match l, hne with
  | b :: rest, _ =>
    cases limit with
    | zero => omega
    | succ limit2 =>
      by_cases hb : b = delim
      · simp [readUntilLimited, hb]
      · have hle := readUntilLimited_rest_le limit2 delim rest
        simp only [readUntilLimited, beq_iff_eq, hb, if_false,
          List.length_cons]
        omega

theorem readUntilLimited_replicate (a delim : ℕ) (hne : (a == delim) = false) :
    ∀ (limit : ℕ) (rest : List ℕ),
      readUntilLimited limit delim (List.replicate limit a ++ rest) =
        (limit, List.replicate limit a, rest) := by
  intro limit
  induction limit with
  | zero => intro rest; cases rest <;> simp [readUntilLimited]
  | succ limit2 ih =>
    intro rest
    simp only [List.replicate_succ, List.cons_append, readUntilLimited, hne,
      Bool.false_eq_true, if_false, List.append_eq, ih rest]

theorem readHeadersLoopF_step (fuel : ℕ) (input resp : List ℕ)
    (hne : input ≠ []) :
    readHeadersLoopF (fuel + 1) input resp =
      (if (readUntilLimited MAX_HEADERS_SIZE 10 input).1 == 2 then
        .ok (resp ++ (readUntilLimited MAX_HEADERS_SIZE 10 input).2.1,
          (readUntilLimited MAX_HEADERS_SIZE 10 input).2.2)
      else readHeadersLoopF fuel
        (readUntilLimited MAX_HEADERS_SIZE 10 input).2.2
        (resp ++ (readUntilLimited MAX_HEADERS_SIZE 10 input).2.1)) := by
  match input, hne with
  | b :: tl, _ => rfl

theorem readHeaders_BIG : readHeaders BIG_HEADERS = .ok (BIG_HEADERS, []) := by
  have hsplit : BIG_HEADERS = List.replicate 2048 97 ++ [97, 97, 10, 13, 10] := by
    rw [BIG_HEADERS, show (2050 : ℕ) = 2048 + 2 from rfl, List.replicate_add]
    simp
  have hlen : BIG_HEADERS.length = 2053 := by
    rw [hsplit]; simp
  have h1 : readUntilLimited MAX_HEADERS_SIZE 10
      (List.replicate 2048 97 ++ [97, 97, 10, 13, 10]) =
      (2048, List.replicate 2048 97, [97, 97, 10, 13, 10]) :=
    readUntilLimited_replicate 97 10 (by decide) 2048 [97, 97, 10, 13, 10]
  have e1 : readHeaders BIG_HEADERS =
      readHeadersLoopF 2052 [97, 97, 10, 13, 10] (List.replicate 2048 97) := by
    rw [readHeaders, hlen, hsplit, show (2053 : ℕ) = 2052 + 1 from rfl,
      readHeadersLoopF_step 2052 _ _ (by simp), h1]
    norm_num
  have e2 : readHeadersLoopF 2052 [97, 97, 10, 13, 10]
      (List.replicate 2048 97) =
      readHeadersLoopF 2051 [13, 10]
        (List.replicate 2048 97 ++ [97, 97, 10]) := by
    rw [show (2052 : ℕ) = 2051 + 1 from rfl,
      readHeadersLoopF_step 2051 _ _ (by simp),
      show readUntilLimited MAX_HEADERS_SIZE 10 [97, 97, 10, 13, 10] =
        (3, [97, 97, 10], [13, 10]) from by decide]
    norm_num
  have e3 : readHeadersLoopF 2051 [13, 10]
      (List.replicate 2048 97 ++ [97, 97, 10]) =
      .ok ((List.replicate 2048 97 ++ [97, 97, 10]) ++ [13, 10], []) := by
    rw [show (2051 : ℕ) = 2050 + 1 from rfl,
      readHeadersLoopF_step 2050 _ _ (by simp),
      show readUntilLimited MAX_HEADERS_SIZE 10 [13, 10] =
        (2, [13, 10], []) from by decide]
    norm_num
  have e4 : (List.replicate 2048 97 ++ [97, 97, 10]) ++ [13, 10] =
      BIG_HEADERS := by
    rw [hsplit]
    simp
  rw [e1, e2, e3, e4]

/-- No parsed segment is `Unknown` and no `Normal` segment carries an ad. -/
def segOk : Segment → Bool
  | .Unknown => false
  | .Normal d _ => !d.is_ad
  | _ => true

theorem except_map_eq_ok {ε α β : Type} (f : α → β) (x : Except ε α) (y : β) :
    (f <$> x = Except.ok y) ↔ ∃ a, x = .ok a ∧ f a = y := by
  cases x <;> simp [Functor.map, Except.map]

theorem segmentsGo_all_ok (body : Str) (ls : List Str) :
    ∀ segs, segmentsGo body ls = .ok segs → segs.all segOk = true := by
  induction ls using segmentsGo.induct body with
  | _ =>
    intro segs h
    simp only [segmentsGo, *, Bool.not_eq_true] at h ⊢
    first
    | (injection h with h2; subst h2; simp_all [segOk])
    | (rcases (except_map_eq_ok _ _ _).1 h with ⟨t, ht, rfl⟩
       simp_all [segOk])
    | simp_all [segOk]

theorem sleep_capped (d : Duration) (e : ℕ)
    (h : 3 * nsPerSec ≤ d.inner ∨ d.was_capped = true) :
    d.sleep e = (⟨d.is_ad, true, d.inner⟩, .aSleep (d.inner / 2) e) := by
  rw [Duration.sleep, if_pos h]

theorem sleep_uncapped (d : Duration) (e : ℕ) (h1 : d.inner < 3 * nsPerSec)
    (h2 : d.was_capped = false) :
    d.sleep e = (d, .aSleep d.inner e) := by
  rw [Duration.sleep, if_neg]
  rintro (h | h)
  · omega
  · rw [h2] at h; cases h

theorem prefetch_not_extinf (l : Str) (h : is_prefetch_segment l = true) :
    startsWith extinfT l = false := by
  rcases List.isPrefixOf_iff_prefix.1 h with ⟨t, rfl⟩
  rfl

theorem dropWhile_of_findIdx?_some {α : Type} (p : α → Bool) (l : List α)
    (i : ℕ) (h : l.findIdx? p = some i) :
    l.dropWhile (fun x => !p x) = l.drop i := by
  induction l generalizing i with
  | nil => simp at h
  | cons a tl ih =>
    rw [List.findIdx?_cons] at h
    by_cases hpa : p a
    · simp only [hpa, if_true, Option.some.injEq] at h
      subst h
      simp [List.dropWhile_cons, hpa]
    · simp only [hpa, Bool.false_eq_true, if_false, List.findIdx?_start_succ,
        Option.map_eq_some'] at h
      rcases h with ⟨j, hj, rfl⟩
      simp only [List.dropWhile_cons, hpa, Bool.not_false, if_true,
        List.drop_succ_cons]
      exact ih j hj

theorem dropWhile_of_findIdx?_none {α : Type} (p : α → Bool) (l : List α)
    (h : l.findIdx? p = none) :
    l.dropWhile (fun x => !p x) = [] := by
  induction l with
  | nil => rfl
  | cons a tl ih =>
    rw [List.findIdx?_cons] at h
    by_cases hpa : p a
    · simp [hpa] at h
    · simp only [hpa, Bool.false_eq_true, if_false, List.findIdx?_start_succ,
        Option.map_eq_none'] at h
      simp [List.dropWhile_cons, hpa, ih h]

theorem writeAll_out (chunks : List (List ℕ)) : ∀ st : HttpHandler,
    (HttpHandler.writeAll st chunks).2 =
      chunks.flatten.drop (st.resume_target - st.written) := by
  induction chunks with
  | nil => intro st; simp [HttpHandler.writeAll]
  | cons c cs ih =>
    intro st
    simp only [HttpHandler.writeAll, List.flatten_cons]
    rw [HttpHandler.write]
    by_cases h1 : 0 < st.resume_target
    · by_cases h2 : st.resume_target ≤ st.written + c.length
      · simp only [h1, if_true, h2, ih]
        rw [List.drop_append_eq_append_drop]
        have h3 : st.resume_target - st.written - c.length = 0 := by omega
        simp [h3]
      · simp only [h1, if_true, h2, if_false, ih]
        rw [List.drop_append_eq_append_drop]
        have hcd : c.drop (st.resume_target - st.written) = [] :=
          List.drop_eq_nil_of_le (by omega)
        rw [hcd, List.nil_append]
        congr 1
        omega
    · simp only [h1, if_false, ih]
      have h0 : st.resume_target = 0 := by omega
      simp [h0]

theorem readUntilLimited_len (limit delim : ℕ) (l : List ℕ) :
    (readUntilLimited limit delim l).2.1.length = (readUntilLimited limit delim l).1 ∧
      (readUntilLimited limit delim l).1 ≤ limit := by
  induction l generalizing limit with
  | nil => simp [readUntilLimited]
  | cons b rest ih =>
    cases limit with
    | zero => simp [readUntilLimited]
    | succ limit2 =>
      by_cases hb : b = delim
      · simp [readUntilLimited, hb]
      · have := ih limit2
        simp only [readUntilLimited, beq_iff_eq, hb, if_false,
          List.length_cons]
        omega

theorem readHeadersLoopF_spec (fuel : ℕ) : ∀ (input resp : List ℕ),
    input.length ≤ fuel →
    (∃ r t, readHeadersLoopF fuel input resp = .ok (resp ++ r, t) ∧
      r ++ t = input) ∨
    readHeadersLoopF fuel input resp = .error "UnexpectedEof" := by
  induction fuel with
  | zero =>
    intro input resp h
    have hin : input = [] := by cases input <;> simp_all
    subst hin
    right; rfl
  | succ f ih =>
    intro input resp h
    match input with
    | [] => right; rfl
    | b :: tl =>
      rw [readHeadersLoopF]
      by_cases hc : (readUntilLimited MAX_HEADERS_SIZE 10 (b :: tl)).1 == 2
      · left
        exact ⟨(readUntilLimited MAX_HEADERS_SIZE 10 (b :: tl)).2.1,
          (readUntilLimited MAX_HEADERS_SIZE 10 (b :: tl)).2.2,
          by simp [hc], readUntilLimited_append MAX_HEADERS_SIZE 10 (b :: tl)⟩
      · have hlt : (readUntilLimited MAX_HEADERS_SIZE 10 (b :: tl)).2.2.length <
            (b :: tl).length :=
          readUntilLimited_rest_lt MAX_HEADERS_SIZE 10 (b :: tl) (by simp)
            (by decide)
        have hle : (readUntilLimited MAX_HEADERS_SIZE 10 (b :: tl)).2.2.length ≤ f := by
          simp only [List.length_cons] at hlt h; omega
        rcases ih (readUntilLimited MAX_HEADERS_SIZE 10 (b :: tl)).2.2
            (resp ++ (readUntilLimited MAX_HEADERS_SIZE 10 (b :: tl)).2.1) hle with
          ⟨r2, t2, heq, hrt⟩ | heq
        · left
          refine ⟨(readUntilLimited MAX_HEADERS_SIZE 10 (b :: tl)).2.1 ++ r2, t2, ?_, ?_⟩
          · simp only [hc, Bool.false_eq_true, if_false, heq,
              List.append_assoc]
          · rw [List.append_assoc, hrt,
              readUntilLimited_append MAX_HEADERS_SIZE 10 (b :: tl)]
        · right
          simp only [hc, Bool.false_eq_true, if_false, heq]

theorem write_written_le (st : HttpHandler) (c : List ℕ) :
    st.written ≤ (HttpHandler.write st c).1.written := by
  rw [HttpHandler.write]
  split_ifs <;> simp

theorem writeAllEv_events (cs : List (List ℕ)) : ∀ (st : HttpHandler),
    ∀ e ∈ (writeAllEv st cs).2, e.phase = .writePhase ∧ e.before ≤ e.after := by
  induction cs with
  | nil => intro st e he; simp [writeAllEv] at he
  | cons c cs2 ih =>
    intro st e he
    simp only [writeAllEv, List.mem_cons] at he
    rcases he with rfl | he
    · exact ⟨rfl, write_written_le st c⟩
    · exact ih _ e he

/-- An event whose zeroing, if any, happens at a reconnect or at the final
successful completion. -/
def goodEvent (e : Event) : Prop :=
  e.isZeroing = true → e.phase = .reconnectPhase ∨ e.phase = .finalPhase

theorem writeAllEv_good (cs : List (List ℕ)) (st : HttpHandler) :
    ∀ e ∈ (writeAllEv st cs).2, goodEvent e := by
  intro e he hz
  rcases writeAllEv_events cs st e he with ⟨hp, hle⟩
  rw [Event.isZeroing] at hz
  simp only [Bool.and_eq_true, decide_eq_true_eq, beq_iff_eq] at hz
  omega

theorem callLoop_good (attempts : List Attempt) :
    ∀ (maxR retries : ℕ) (h : HttpHandler) (tr : List Event),
    (∀ e ∈ tr, goodEvent e) →
    (∀ e ∈ (callLoop maxR attempts retries h tr).1, goodEvent e) ∧
    ((callLoop maxR attempts retries h tr).2.2 = .ok () →
      (callLoop maxR attempts retries h tr).2.1.written = 0) := by
  induction attempts with
  | nil =>
    intro maxR retries h tr htr
    refine ⟨fun e he => htr e he, fun hok => ?_⟩
    simp [callLoop] at hok
  | cons a rest ih =>
    intro maxR retries h tr htr
    obtain ⟨ws, oc⟩ := a
    have hgood1 : ∀ e ∈ tr ++ (writeAllEv h ws).2, goodEvent e := by
      intro e he
      rcases List.mem_append.1 he with he | he
      · exact htr e he
      · exact writeAllEv_good ws h e he
    cases oc with
    | success =>
      refine ⟨?_, fun _ => rfl⟩
      intro e he
      simp only [callLoop, List.append_assoc] at he
      rcases List.mem_append.1 he with he | he
      · exact htr e he
      · rcases List.mem_append.1 he with he | he
        · exact writeAllEv_good ws h e he
        · rcases List.mem_singleton.1 he with rfl
          intro _; right; rfl
    | nonIoError =>
      refine ⟨fun e he => hgood1 e he, fun hok => ?_⟩
      simp [callLoop] at hok
    | ioError k =>
      by_cases hret : retries < maxR
      · cases k with
        | otherKind =>
          constructor
          · intro e he
            simp only [callLoop, hret, if_true] at he
            exact hgood1 e he
          · intro hok
            simp [callLoop, hret] at hok
        | transientKind =>
          have hgood2 : ∀ e ∈ (tr ++ (writeAllEv h ws).2) ++
              [⟨.reconnectPhase, (writeAllEv h ws).1.written, 0⟩], goodEvent e := by
            intro e he
            rcases List.mem_append.1 he with he | he
            · exact hgood1 e he
            · rcases List.mem_singleton.1 he with rfl
              intro _; left; rfl
          have hrec := ih maxR (retries + 1) ⟨0, 0⟩
            ((tr ++ (writeAllEv h ws).2) ++
              [⟨.reconnectPhase, (writeAllEv h ws).1.written, 0⟩]) hgood2
          constructor
          · intro e he
            simp only [callLoop, hret, if_true] at he
            exact hrec.1 e (by simpa using he)
          · intro hok
            simp only [callLoop, hret, if_true] at hok ⊢
            exact hrec.2 hok
      · constructor
        · intro e he
          simp only [callLoop, hret, if_false] at he
          exact hgood1 e he
        · intro hok
          simp [callLoop, hret] at hok

/-! Claim theorems -/

/-- C1: resume-on-retry is idempotent at the sink. For every body byte
sequence and split point `k` in `[0, body_len]`, if a first attempt delivered
exactly the first `k` bytes and the retry replays the full body through
`Handler::write` (in any chunking) starting from `written = 0` and
`resume_target = k`, the handler discards exactly the first `k` replayed
bytes and forwards the remainder, so the sink sees the bytes of a single
uninterrupted request. -/
theorem claim_C1_resume_idempotent (body : List ℕ) (k : ℕ)
    (chunks : List (List ℕ)) (hk : k ≤ body.length)
    (hjoin : chunks.flatten = body) :
    (HttpHandler.writeAll ⟨0, k⟩ chunks).2 = body.drop k ∧
    body.take k ++ (HttpHandler.writeAll ⟨0, k⟩ chunks).2 = body := by
  have h := writeAll_out chunks ⟨0, k⟩
  simp only [hjoin] at h
  refine ⟨by simpa using h, ?_⟩
  rw [h]
  simp [List.take_append_drop]

/-- Witness for C1: body `[1,2,3,4]`, split point `k = 2`, replay chunked as
`[1,2,3]` then `[4]`. -/
theorem claim_C1_witness :
    (HttpHandler.writeAll ⟨0, 2⟩ [[1, 2, 3], [4]]).2 = [3, 4] ∧
    [1, 2, 3, 4].take 2 ++ (HttpHandler.writeAll ⟨0, 2⟩ [[1, 2, 3], [4]]).2 =
      [1, 2, 3, 4] := by
  have h := claim_C1_resume_idempotent [1, 2, 3, 4] 2 [[1, 2, 3], [4]]
    (by decide) (by decide)
  simpa using h

/-- C2: two segments compare equal iff their URLs are equal (durations
ignored), and `find_next` returns the successor of the first index at which
`prev` is found, `none` when that index is last, and `Unknown` when `prev` is
nowhere in the list. -/
theorem claim_C2_eq_and_find_next :
    (∀ a b : Segment, a.eqBy b = true ↔ a.urlOf = b.urlOf) ∧
    (∀ (prev : Segment) (segs : List Segment) (i : ℕ),
      segs.findIdx? (fun s => prev.eqBy s) = some i →
      (∀ h : i + 1 < segs.length,
        Segment.find_next prev segs = some (segs.get ⟨i + 1, h⟩)) ∧
      (i + 1 = segs.length → Segment.find_next prev segs = none)) ∧
    (∀ (prev : Segment) (segs : List Segment),
      segs.findIdx? (fun s => prev.eqBy s) = none →
      Segment.find_next prev segs = some .Unknown) := by
  refine ⟨?_, ?_, ?_⟩
  · intro a b
    simp [Segment.eqBy]
  · intro prev segs i hidx
    constructor
    · intro h
      have hne : (i + 1 == segs.length) = false := by
        simp only [beq_eq_false_iff_ne, ne_eq]
        omega
      simp [Segment.find_next, hidx, hne, List.get?_eq_getElem?,
        List.getElem?_eq_getElem h]
    · intro h
      simp [Segment.find_next, hidx, h]
  · intro prev segs h
    simp [Segment.find_next, h]

/-- Witness for C2 at a concrete list: equality ignores durations, the
successor is returned, the last index yields `none`, and a missing previous
segment yields `Unknown`. -/
theorem claim_C2_witness :
    (Segment.eqBy (.NewestPrefetch "u".toList)
      (.Normal ⟨false, false, 1⟩ "u".toList) = true) ∧
    Segment.find_next (.NewestPrefetch "u".toList)
      [.Normal ⟨false, false, 1⟩ "u".toList,
       .NextPrefetch ⟨false, false, 2⟩ "v".toList] =
      some (.NextPrefetch ⟨false, false, 2⟩ "v".toList) ∧
    Segment.find_next (.NewestPrefetch "v".toList)
      [.Normal ⟨false, false, 1⟩ "u".toList,
       .NextPrefetch ⟨false, false, 2⟩ "v".toList] = none ∧
    Segment.find_next (.NewestPrefetch "w".toList)
      [.Normal ⟨false, false, 1⟩ "u".toList,
       .NextPrefetch ⟨false, false, 2⟩ "v".toList] = some .Unknown := by
  refine ⟨?_, ?_, ?_, ?_⟩
  · exact (claim_C2_eq_and_find_next.1 _ _).2 (by decide)
  · have h := (claim_C2_eq_and_find_next.2.1 (.NewestPrefetch "u".toList)
      [.Normal ⟨false, false, 1⟩ "u".toList,
       .NextPrefetch ⟨false, false, 2⟩ "v".toList] 0 (by decide)).1
      (by decide)
    simpa using h
  · exact (claim_C2_eq_and_find_next.2.1 (.NewestPrefetch "v".toList)
      [.Normal ⟨false, false, 1⟩ "u".toList,
       .NextPrefetch ⟨false, false, 2⟩ "v".toList] 1 (by decide)).2
      (by decide)
  · exact claim_C2_eq_and_find_next.2.2 (.NewestPrefetch "w".toList)
      [.Normal ⟨false, false, 1⟩ "u".toList,
       .NextPrefetch ⟨false, false, 2⟩ "v".toList] (by decide)

/-- C3: every `#EXT-X-TWITCH-PREFETCH:<url>` line yields
`NextPrefetch(last_duration, url)` where `last_duration` is drawn from the
whole body searched from the end, and an immediately following prefetch line
is emitted as `NewestPrefetch(url)`; on the canonical prefetch playlist,
where the preceding `#EXTINF` is `0.978`, the segment list ends with
`NextPrefetch(0.978s, is_ad: false, next-prefetch-url)` followed by
`NewestPrefetch(newest-prefetch-url)`. -/
theorem claim_C3_prefetch :
    (∀ (body p1 p2 : Str) (rest : List Str) (a1 u1 a2 u2 : Str)
      (d : Duration),
      is_prefetch_segment p1 = true → is_prefetch_segment p2 = true →
      splitOnceChar ':' p1 = some (a1, u1) →
      splitOnceChar ':' p2 = some (a2, u2) →
      last_duration body = .ok d →
      segmentsGo body (p1 :: p2 :: rest) =
        (fun t => .NextPrefetch d u1 :: .NewestPrefetch u2 :: t) <$>
          segmentsGo body rest) ∧
    segments MEDIA_PLAYLIST = .ok
      [.Normal ⟨false, false, 978000000⟩ "http://segment1.invalid".toList,
       .NextPrefetch ⟨false, false, 978000000⟩
         "http://next-prefetch-url.invalid".toList,
       .NewestPrefetch "http://newest-prefetch-url.invalid".toList] := by
  constructor
  · intro body p1 p2 rest a1 u1 a2 u2 d h1 h2 hs1 hs2 hld
    have he1 : startsWith extinfT p1 = false := prefetch_not_extinf p1 h1
    simp only [segmentsGo, he1, Bool.false_eq_true, if_false, h1, if_true,
      hld, hs1, h2, hs2]
  · decide

/-- Witness for C3: the two prefetch lines of the canonical playlist, whose
`last_duration` is the `0.978` `#EXTINF`, produce exactly the claimed pair. -/
theorem claim_C3_witness :
    segmentsGo MEDIA_PLAYLIST
      ["#EXT-X-TWITCH-PREFETCH:http://next-prefetch-url.invalid".toList,
       "#EXT-X-TWITCH-PREFETCH:http://newest-prefetch-url.invalid".toList] =
      (fun t => .NextPrefetch ⟨false, false, 978000000⟩
          "http://next-prefetch-url.invalid".toList ::
        .NewestPrefetch "http://newest-prefetch-url.invalid".toList :: t) <$>
        segmentsGo MEDIA_PLAYLIST [] :=
  claim_C3_prefetch.1 MEDIA_PLAYLIST
    "#EXT-X-TWITCH-PREFETCH:http://next-prefetch-url.invalid".toList
    "#EXT-X-TWITCH-PREFETCH:http://newest-prefetch-url.invalid".toList []
    "#EXT-X-TWITCH-PREFETCH".toList "http://next-prefetch-url.invalid".toList
    "#EXT-X-TWITCH-PREFETCH".toList
    "http://newest-prefetch-url.invalid".toList ⟨false, false, 978000000⟩
    (by decide) (by decide) (by decide) (by decide) (by decide)

/-- C4 counterexample: on the canonical master playlist with quality `best`,
the claim's reading — the third line after the first line that BEGINS with
`#EXT-X-MEDIA` — denotes the next `#EXT-X-MEDIA` header line, while the code
returns `http://1080p.invalid` (the line two after the match), so the claim's
description of the selection does not match what the code returns. -/
theorem claim_C4_counterexample :
    claimVariantUrl MASTER_PLAYLIST bestT =
      some ("#EXT-X-MEDIA:TYPE=VIDEO,GROUP-ID=\"720p60\",NAME=\"720p60\",AUTOSELECT=YES,DEFAULT=YES".toList) ∧
    parse_variant_playlist MASTER_PLAYLIST bestT =
      .ok ⟨"http://1080p.invalid".toList, true⟩ ∧
    ("#EXT-X-MEDIA:TYPE=VIDEO,GROUP-ID=\"720p60\",NAME=\"720p60\",AUTOSELECT=YES,DEFAULT=YES".toList : Str) ≠
      "http://1080p.invalid".toList := by
  refine ⟨by decide, by decide, by decide⟩

/-- C4 (amended): variant selection takes the first line that CONTAINS
`#EXT-X-MEDIA` and the quality as a substring (any such line when the quality
is `best`), and the variant URL is the line TWO after that match (the third
line of the MEDIA, STREAM-INF, URL pattern); the canonical playlist yields
`http://720p60.invalid` for `720p`, `http://1080p.invalid` for `best`,
`http://audio-only.invalid` for `audio_only`; with no matching line the
result is the invalid-quality error. -/
theorem claim_C4_amended :
    (∀ (body q : Str) (i : ℕ),
      (rustLines body).findIdx? (variantMatch q) = some i →
      parse_variant_playlist body q =
        (match (rustLines body).get? (i + 2) with
         | some url => .ok ⟨url, containsSubstr body futureT⟩
         | none => .error "Invalid quality or malformed master playlist")) ∧
    (∀ body q, (rustLines body).findIdx? (variantMatch q) = none →
      parse_variant_playlist body q =
        .error "Invalid quality or malformed master playlist") ∧
    parse_variant_playlist MASTER_PLAYLIST "720p".toList =
      .ok ⟨"http://720p60.invalid".toList, true⟩ ∧
    parse_variant_playlist MASTER_PLAYLIST "best".toList =
      .ok ⟨"http://1080p.invalid".toList, true⟩ ∧
    parse_variant_playlist MASTER_PLAYLIST "audio_only".toList =
      .ok ⟨"http://audio-only.invalid".toList, true⟩ := by
  refine ⟨?_, ?_, by decide, by decide, by decide⟩
  · intro body q i h
    rw [parse_variant_playlist,
      dropWhile_of_findIdx?_some (variantMatch q) (rustLines body) i h]
    simp only [List.get?_eq_getElem?, List.getElem?_drop]
    cases hx : (rustLines body)[i + 2]? <;> rfl
  · intro body q h
    rw [parse_variant_playlist,
      dropWhile_of_findIdx?_none (variantMatch q) (rustLines body) h]
    rfl

/-- Witness for C4 (amended): the `720p` selection goes through the first
matching line at index 5 and returns the line at index 7. -/
theorem claim_C4_witness :
    parse_variant_playlist MASTER_PLAYLIST "720p".toList =
      .ok ⟨"http://720p60.invalid".toList, true⟩ := by
  have h := claim_C4_amended.1 MASTER_PLAYLIST "720p".toList 5 (by decide)
  rw [h, show (rustLines MASTER_PLAYLIST).get? (5 + 2) =
    some "http://720p60.invalid".toList from by decide,
    show containsSubstr MASTER_PLAYLIST futureT = true from by decide]

/-- C5 counterexample: on a playlist whose last `#EXTINF` line carries the ad
marker, a single `process` call does NOT sleep out the ad — `segments()` has
already dropped the ad segment, so `process` dispatches a URL to the worker
and advances `prev_segment` (here: from `Unknown` to the newest segment). -/
theorem claim_C5_counterexample :
    last_duration AD_PLAYLIST = .ok ⟨true, false, 2 * nsPerSec⟩ ∧
    process ⟨.Unknown, true⟩ AD_PLAYLIST 0 =
      .ok (⟨.Normal ⟨false, false, 2 * nsPerSec⟩ [], false⟩,
        [.aSyncUrl "http://a.invalid".toList]) ∧
    (Segment.Normal ⟨false, false, 2 * nsPerSec⟩ [] ≠ .Unknown) ∧
    ([Act.aSyncUrl "http://a.invalid".toList].all
      (fun a => ! a.isSleep)) = true := by
  refine ⟨by decide, by decide, by decide, by decide⟩

/-- C5 (amended): the ad-sleep branch inside `Handler::process` can never
fire, because `segments()` never returns a `Normal` segment whose duration is
an ad; the sleep-through-the-ad behaviour lives in
`MediaPlaylist::filter_if_ad` instead, which, whenever the last `#EXTINF` of
the raw body is an ad, performs that duration's sleep and signals `Break`
without touching any segment state — as on the concrete ad playlist, where it
sleeps the full 2 seconds. -/
theorem claim_C5_amended :
    (∀ (body : Str) (segs : List Segment) (d : Duration),
      segments body = .ok segs → lastNormalDuration segs = some d →
      d.is_ad = false) ∧
    (∀ (body : Str) (e : ℕ) (d : Duration),
      last_duration body = .ok d → d.is_ad = true →
      filter_if_ad body e = .ok (some (d.sleep e).2)) ∧
    filter_if_ad AD_PLAYLIST 0 = .ok (some (.aSleep (2 * nsPerSec) 0)) := by
  refine ⟨?_, ?_, by decide⟩
  · intro body segs d hsegs hlast
    rcases List.exists_of_findSome?_eq_some hlast with ⟨s, hmem, hs⟩
    have hall := segmentsGo_all_ok body (rustLines body) segs hsegs
    have hmem2 : s ∈ segs := List.mem_reverse.1 hmem
    have hok := List.all_eq_true.1 hall s hmem2
    cases s with
    | Normal d2 u =>
      simp only [Option.some.injEq] at hs
      subst hs
      simpa [segOk] using hok
    | NextPrefetch d2 u => simp at hs
    | NewestPrefetch u => simp at hs
    | Unknown => simp at hs
  · intro body e d h1 h2
    rw [filter_if_ad, h1]
    simp [h2]

/-- Witness for C5 (amended): the canonical prefetch playlist's last `Normal`
duration is not an ad, and `filter_if_ad` on the ad playlist sleeps the full
2-second ad duration. -/
theorem claim_C5_witness :
    (Duration.mk false false 978000000).is_ad = false ∧
    filter_if_ad AD_PLAYLIST 7 =
      .ok (some ((Duration.mk true false (2 * nsPerSec)).sleep 7).2) := by
  constructor
  · exact claim_C5_amended.1 MEDIA_PLAYLIST
      [.Normal ⟨false, false, 978000000⟩ "http://segment1.invalid".toList,
       .NextPrefetch ⟨false, false, 978000000⟩
         "http://next-prefetch-url.invalid".toList,
       .NewestPrefetch "http://newest-prefetch-url.invalid".toList]
      ⟨false, false, 978000000⟩ (by decide) (by decide)
  · exact claim_C5_amended.2.1 AD_PLAYLIST 7 ⟨true, false, 2 * nsPerSec⟩
      (by decide) (by decide)

/-- C6: a `Duration` of at least 3 seconds, or one already capped, sleeps for
half its value (the `sleep_thread` call receives `inner / 2` and the elapsed
time) and sets `was_capped`, which persists so later sleeps on the same
`Duration` also halve; a 5-second duration with 0.1 s elapsed calls
`sleep_thread` with 2.5 s and caps, and the subsequent sleep with 0 elapsed
again uses 2.5 s; an uncapped duration under 3 seconds sleeps its full
value. -/
theorem claim_C6_sleep_cap :
    (∀ (d : Duration) (e : ℕ),
      3 * nsPerSec ≤ d.inner ∨ d.was_capped = true →
      d.sleep e = (⟨d.is_ad, true, d.inner⟩, .aSleep (d.inner / 2) e)) ∧
    (∀ (d : Duration) (e1 e2 : ℕ),
      3 * nsPerSec ≤ d.inner ∨ d.was_capped = true →
      ((d.sleep e1).1.was_capped = true ∧
        ((d.sleep e1).1.sleep e2).2 = .aSleep (d.inner / 2) e2)) ∧
    (∀ (d : Duration) (e : ℕ),
      d.inner < 3 * nsPerSec → d.was_capped = false →
      d.sleep e = (d, .aSleep d.inner e)) ∧
    ((Duration.mk false false (5 * nsPerSec)).sleep (nsPerSec / 10) =
      (⟨false, true, 5 * nsPerSec⟩,
        .aSleep (5 * nsPerSec / 2) (nsPerSec / 10))) ∧
    (((Duration.mk false false (5 * nsPerSec)).sleep (nsPerSec / 10)).1.sleep 0 =
      (⟨false, true, 5 * nsPerSec⟩, .aSleep (5 * nsPerSec / 2) 0)) := by
  refine ⟨?_, ?_, ?_, by decide, by decide⟩
  · intro d e h
    exact sleep_capped d e h
  · intro d e1 e2 h
    rw [sleep_capped d e1 h]
    constructor
    · rfl
    · rw [sleep_capped ⟨d.is_ad, true, d.inner⟩ e2 (Or.inr rfl)]
  · intro d e h1 h2
    exact sleep_uncapped d e h1 h2

/-- Witness for C6: the capped branch at the concrete 5-second duration and
the uncapped branch at the concrete 2-second duration. -/
theorem claim_C6_witness :
    (Duration.mk false false (5 * nsPerSec)).sleep (nsPerSec / 10) =
      (⟨false, true, 5 * nsPerSec⟩,
        .aSleep (5 * nsPerSec / 2) (nsPerSec / 10)) ∧
    (Duration.mk true false (2 * nsPerSec)).sleep 0 =
      (⟨true, false, 2 * nsPerSec⟩, .aSleep (2 * nsPerSec) 0) := by
  constructor
  · exact claim_C6_sleep_cap.1 ⟨false, false, 5 * nsPerSec⟩ (nsPerSec / 10)
      (Or.inl (by decide))
  · exact claim_C6_sleep_cap.2.2.1 ⟨true, false, 2 * nsPerSec⟩ 0 (by decide)
      rfl

/-- C7 counterexample: for the body consisting of the ENDLIST tag followed by
two newlines, the last NON-EMPTY line begins with `#EXT-X-ENDLIST` (the
claim's condition holds) yet `reload` succeeds, because the code inspects the
literal last line of `lines()`, which is the empty line. -/
theorem claim_C7_counterexample :
    claimOffline "#EXT-X-ENDLIST\n\n".toList = true ∧
    (reload "#EXT-X-ENDLIST\n\n".toList).2 = .ok () ∧
    (reload "#EXT-X-ENDLIST\n\n".toList).1 = "#EXT-X-ENDLIST\n\n".toList := by
  refine ⟨by decide, by decide, by decide⟩

/-- C7 (amended): `reload` stores the body and returns `Offline` iff the LAST
line produced by `lines()` — the piece after the final interior newline,
where one trailing newline produces no line — begins with `#EXT-X-ENDLIST`;
an empty body succeeds, the tag with no or one trailing newline is detected,
and trailing blank lines after the tag mask it, so reload succeeds. -/
theorem claim_C7_amended :
    (∀ body : Str, (reload body).1 = body) ∧
    (∀ (body : Str) (pre : List Str) (l : Str),
      rustLines body = pre ++ [l] →
      ((reload body).2 = .error "Offline" ↔ startsWith endlistT l = true)) ∧
    (∀ body : Str, rustLines body = [] → (reload body).2 = .ok ()) ∧
    (reload "#EXT-X-ENDLIST".toList).2 = .error "Offline" ∧
    (reload "#EXT-X-ENDLIST\n".toList).2 = .error "Offline" ∧
    (reload "#EXT-X-ENDLIST\n\n".toList).2 = .ok () := by
  refine ⟨?_, ?_, ?_, by decide, by decide, by decide⟩
  · intro body; rfl
  · intro body pre l h
    by_cases hs : startsWith endlistT l = true
    · simp [reload, h, List.getLast?_concat, hs]
    · simp [reload, h, List.getLast?_concat, hs]
  · intro body h
    simp only [reload, h, List.getLast?_nil, Option.getD_none]
    rw [show startsWith endlistT [] = false from by decide]
    rfl

/-- Witness for C7 (amended): the single-line ENDLIST body decomposes as
`[] ++ [tag line]` and reload returns `Offline`. -/
theorem claim_C7_witness :
    (reload "#EXT-X-ENDLIST\n".toList).2 = .error "Offline" :=
  (claim_C7_amended.2.1 "#EXT-X-ENDLIST\n".toList [] "#EXT-X-ENDLIST".toList
    (by decide)).2 (by decide)

/-- C8 counterexample: a response whose header section is 2053 bytes — far
above `MAX_HEADERS_SIZE = 2048` — is read to completion with no error at all:
the 2048-byte `take` is rebuilt for every `read_until` call, so nothing
bounds the accumulated headers and no `HeadersTooLarge` abort exists. -/
theorem claim_C8_counterexample :
    readHeaders BIG_HEADERS = .ok (BIG_HEADERS, []) ∧
    2048 < BIG_HEADERS.length := by
  refine ⟨readHeaders_BIG, ?_⟩
  have h : BIG_HEADERS.length = 2053 := by rw [BIG_HEADERS]; simp
  omega

/-- C8 (amended): header bytes are accumulated read by read until a read
consumes exactly the two bytes of a bare CRLF; each single `read_until` call
is capped at 2048 bytes (`read_until` through a fresh `take`), but the
accumulated header section is unbounded and the only failure of the loop is
`UnexpectedEof` — there is no `HeadersTooLarge` abort, and on success the
response plus the unread rest is exactly the input. -/
theorem claim_C8_amended :
    (∀ (limit delim : ℕ) (l : List ℕ),
      (readUntilLimited limit delim l).2.1.length =
        (readUntilLimited limit delim l).1 ∧
      (readUntilLimited limit delim l).1 ≤ limit) ∧
    (∀ input : List ℕ,
      (∃ r t, readHeaders input = .ok (r, t) ∧ r ++ t = input) ∨
      readHeaders input = .error "UnexpectedEof") := by
  refine ⟨readUntilLimited_len, ?_⟩
  intro input
  rcases readHeadersLoopF_spec input.length input [] (le_refl _) with
    ⟨r, t, heq, hrt⟩ | heq
  · left
    exact ⟨r, t, by simpa [readHeaders] using heq, hrt⟩
  · right
    simpa [readHeaders] using heq

/-- The execution script of a retried request: one transient I/O failure
after 5 bytes were written, then a successful attempt writing 2 bytes. -/
def RETRY_SCRIPT : List Attempt :=
  [⟨[[1, 2, 3, 4, 5]], .ioError .transientKind⟩, ⟨[[9, 9]], .success⟩]

/-- C9 counterexample: in a `call()` with one transient mid-body failure, the
`written` counter is also reset to zero at the retry's reconnect (the handler
is rebuilt), not only at the final successful completion — the trace contains
the zeroing event `(reconnectPhase, 5, 0)` before the final one. -/
theorem claim_C9_counterexample :
    (callModel 1 RETRY_SCRIPT ⟨0, 0⟩).1 =
      [⟨.writePhase, 0, 5⟩, ⟨.reconnectPhase, 5, 0⟩,
       ⟨.writePhase, 0, 2⟩, ⟨.finalPhase, 2, 0⟩] ∧
    ¬ (∀ e ∈ (callModel 1 RETRY_SCRIPT ⟨0, 0⟩).1,
        e.isZeroing = true → e.phase = .finalPhase) := by
  refine ⟨by decide, by decide⟩

/-- C9 (amended): during `call()` the `written` counter is reset to zero only
at a retry's reconnect (where the handler is rebuilt from scratch — which
also means the `resume_target` branch reading the counter after the rebuild
is dead) or at the final successful completion; and after a successful
`call()` the counter equals zero. -/
theorem claim_C9_amended :
    ∀ (maxRetries : ℕ) (attempts : List Attempt) (h0 : HttpHandler),
      (∀ e ∈ (callModel maxRetries attempts h0).1,
        e.isZeroing = true →
          e.phase = .reconnectPhase ∨ e.phase = .finalPhase) ∧
      ((callModel maxRetries attempts h0).2.2 = .ok () →
        (callModel maxRetries attempts h0).2.1.written = 0) := by
  intro maxR attempts h0
  have h := callLoop_good attempts maxR 0 h0 []
    (by intro e he; simp at he)
  exact ⟨fun e he => h.1 e he, h.2⟩

/-- Witness for C9 (amended) on the concrete retry script: the zeroing event
in its trace is at the reconnect phase, and after the successful completion
the counter is zero. -/
theorem claim_C9_witness :
    ((Event.mk .reconnectPhase 5 0).phase = .reconnectPhase ∨
      (Event.mk .reconnectPhase 5 0).phase = .finalPhase) ∧
    (callModel 1 RETRY_SCRIPT ⟨0, 0⟩).2.1.written = 0 := by
  constructor
  · exact (claim_C9_amended 1 RETRY_SCRIPT ⟨0, 0⟩).1 ⟨.reconnectPhase, 5, 0⟩
      (by decide) (by decide)
  · exact (claim_C9_amended 1 RETRY_SCRIPT ⟨0, 0⟩).2 (by decide)

/-- C10: the segment list produced by `MediaPlaylist::segments` never
contains `Segment::Unknown`, and never a `Normal` segment whose duration is
an ad — an ad `#EXTINF` line produces no segment at all, so `Unknown` can
only arise as the initial `prev_segment` or as `find_next`'s not-found
result, never from parsing. -/
theorem claim_C10_parsed_segments :
    (∀ (body : Str) (segs : List Segment), segments body = .ok segs →
      Segment.Unknown ∉ segs) ∧
    (∀ (body : Str) (segs : List Segment) (d : Duration) (u : Str),
      segments body = .ok segs → Segment.Normal d u ∈ segs →
      d.is_ad = false) := by
  constructor
  · intro body segs h hm
    have hall := segmentsGo_all_ok body (rustLines body) segs h
    have hbad := List.all_eq_true.1 hall _ hm
    simp [segOk] at hbad
  · intro body segs d u h hm
    have hall := segmentsGo_all_ok body (rustLines body) segs h
    have hgood := List.all_eq_true.1 hall _ hm
    simpa [segOk] using hgood

/-- Witness for C10 on the canonical prefetch playlist's parsed segments. -/
theorem claim_C10_witness :
    Segment.Unknown ∉
      [Segment.Normal ⟨false, false, 978000000⟩
        "http://segment1.invalid".toList,
       .NextPrefetch ⟨false, false, 978000000⟩
         "http://next-prefetch-url.invalid".toList,
       .NewestPrefetch "http://newest-prefetch-url.invalid".toList] ∧
    (Duration.mk false false 978000000).is_ad = false := by
  constructor
  · exact claim_C10_parsed_segments.1 MEDIA_PLAYLIST
      [.Normal ⟨false, false, 978000000⟩ "http://segment1.invalid".toList,
       .NextPrefetch ⟨false, false, 978000000⟩
         "http://next-prefetch-url.invalid".toList,
       .NewestPrefetch "http://newest-prefetch-url.invalid".toList]
      (by decide)
  · exact claim_C10_parsed_segments.2 MEDIA_PLAYLIST
      [.Normal ⟨false, false, 978000000⟩ "http://segment1.invalid".toList,
       .NextPrefetch ⟨false, false, 978000000⟩
         "http://next-prefetch-url.invalid".toList,
       .NewestPrefetch "http://newest-prefetch-url.invalid".toList]
      ⟨false, false, 978000000⟩ "http://segment1.invalid".toList
      (by decide) (by decide)
